import Mathlib

/-! tplink: the autokey XOR codec and the discovery loop

A shallow embedding of `decrypt`, `encrypt` and `Scan` from `tplink.go`.

* A Go `byte` is a natural number below 256 (`Byte`); `^` on bytes is the
  bitwise exclusive or, which never leaves the byte range.
* A Go `string` is an arbitrary byte sequence (it need not be valid UTF-8), so
  both `string` and `[]byte` are `List Byte`, and the conversions
  `[]byte(s)` and `string(b)` are the identity on the bytes.
* A Go slice that can be `nil` is an `Option (List _)`; a Go pointer that can
  be `nil` is an `Option _`; a Go `error` value that can be `nil` is an
  `Option Error`.
-/

namespace Tplink

/-! ## Bytes and byte buffers -/

/-- A Go `byte` (`uint8`). -/
abbrev Byte := Fin 256

/-- The Go expression `make([]byte, n)`: a buffer of `n` zero bytes. -/
def makeBytes (n : Nat) : List Byte := List.replicate n 0

/-- The UTF-8 bytes of a string constant, as Go stores it. -/
def goString (s : String) : List Byte :=
  (s.toList.flatMap String.utf8EncodeChar).map (fun b => b.val)

/-- The command constant `GET_INFO`. -/
def GET_INFO : List Byte :=
  goString "\x7b\"system\":\x7b\"get_sysinfo\":\x7b\x7d\x7d\x7d"

/-! ## The codec, as written in `tplink.go` -/

/-- The body of the `for i, c := range request` loop of `decrypt`, started at
index `i` with the running `key` and the `result` buffer. -/
def decryptLoop : List Byte → Nat → Byte → List Byte → List Byte
  | [], _, _, result => result
  | c :: rest, i, key, result =>
    let a := key ^^^ c
    let key := c
    let result := result.set i a
    decryptLoop rest (i + 1) key result

/-- The function `decrypt(request []byte) string`. -/
def decrypt (request : List Byte) : List Byte :=
  let result := makeBytes request.length
  let key : Byte := 0xAB
  decryptLoop request 0 key result

/-- The body of the `for i, c := range request` loop of `encrypt`, started at
index `i` with the running `key` and the `result` buffer. -/
def encryptLoop : List Byte → Nat → Byte → List Byte → List Byte
  | [], _, _, result => result
  | c :: rest, i, key, result =>
    let a := key ^^^ c
    let key := a
    let result := result.set (i + 4) a
    encryptLoop rest (i + 1) key result

/-- The working buffer `result` of `encrypt` when its loop has finished, just
before the final `result[4:]`. -/
def encryptBuffer (s : List Byte) : List Byte :=
  let request := s
  let key : Byte := 0xAB
  let result := makeBytes (4 + request.length)
  let result := result.set 0 0x0
  let result := result.set 1 0x0
  let result := result.set 2 0x0
  let result := result.set 3 0x0
  encryptLoop request 0 key result

/-- The function `encrypt(s string) []byte`: the working buffer without its
first four bytes (`result[4:]`). -/
def encrypt (s : List Byte) : List Byte :=
  (encryptBuffer s).drop 4

/-! ## The codec, as the specification words it -/

/-- Encode as the specification describes it: for each input byte `c`,
`output = key XOR c`, then `key = output`. -/
def encodeSpec : Byte → List Byte → List Byte
  | _, [] => []
  | key, c :: rest => (key ^^^ c) :: encodeSpec (key ^^^ c) rest

/-- Decode as the specification describes it: for each input byte `c`,
`output = key XOR c`, then `key = c`. -/
def decodeSpec : Byte → List Byte → List Byte
  | _, [] => []
  | key, c :: rest => (key ^^^ c) :: decodeSpec c rest

/-! ## The data model that `Scan` touches -/

/-- A Go `float64`, kept as its 64-bit pattern; no arithmetic is done on it. -/
abbrev Float64 := Fin 18446744073709551616

/-- A Go `error` value: its text, and whether it reports a timeout (for a
`net.Error`, what `Timeout()` answers). -/
structure Error where
  msg : String
  timeout : Bool
deriving DecidableEq, Repr

/-- The struct `Info`. Its field `Type` is `DeviceType` here, `Type` being a
reserved word. -/
structure Info where
  SoftwareVersion : String
  HardwareVersion : String
  HardwareID : String
  DeviceType : String
  Model : String
  MacAddr : String
  DeviceID : String
  FirmwareID : String
  OEMID : String
  Alias : String
  IconHash : String
  State : Int
  ActiveMode : String
  Feature : String
  Updating : Int
  RSSI : Int
  LedOff : Int
  Latitude : Float64
  Longitude : Float64
deriving DecidableEq, Repr

/-- The struct `Device`. -/
structure Device where
  IPAddress : String
  Info : Info
deriving DecidableEq, Repr

/-- The anonymous struct `{ErrorCode int; ErrorMessage string}` that
`Response` repeats for each command. -/
structure ErrorStatus where
  ErrorCode : Int
  ErrorMessage : String
deriving DecidableEq, Repr

/-- The field `System` of `Response`; `Info` is the embedded pointer `*Info`
decoded from the key `get_sysinfo`, `none` when the pointer is nil. -/
structure ResponseSystem where
  Info : Option Info
  SetAlias : ErrorStatus
  SetState : ErrorStatus
deriving DecidableEq, Repr

/-- The struct `Response`. Only the section `System` is kept: `Scan` reads
nothing of `CNCloud`, `Time`, `Schedule`, `NetIf` and `EMeter`. -/
structure Response where
  System : ResponseSystem
deriving DecidableEq, Repr

/-- The zero value `Response{}`: the `Info` pointer is nil. -/
def Response.zero : Response :=
  { System := { Info := none, SetAlias := ⟨0, ""⟩, SetState := ⟨0, ""⟩ } }

/-- A `*net.UDPAddr`: the text that `addr.IP.String()` renders, and the port. -/
structure UDPAddr where
  IP : String
  Port : Nat
deriving DecidableEq, Repr

/-- A successful `sock.ReadFromUDP(buff)`: the buffer after the call, the
count `rlen` of bytes received and the sender `addr`. -/
structure Read where
  buff : List Byte
  rlen : Nat
  addr : UDPAddr
deriving DecidableEq, Repr

/-- The library calls `Scan` makes, as the results they give.
`json.Unmarshal(data, &r)` on `r := Response{}` is the function `unmarshal`:
the error it returns, or the `Response` it leaves in `r`. -/
structure Net where
  resolveUDPAddr : String → String → Except Error UDPAddr
  listenUDP : String → UDPAddr → Except Error Unit
  writeToUDP : List Byte → UDPAddr → Option Error
  setReadDeadline : Option Error
  unmarshal : List Byte → Except Error Response

/-- How a call of `Scan` ends: it returns its pair `([]Device, error)`, or it
stops in a run-time panic (nil pointer dereference). -/
inductive Outcome where
  | returned (devices : Option (List Device)) (err : Option Error)
  | panicked
deriving DecidableEq, Repr

/-! ## `Scan`, as written in `tplink.go` -/

/-- The `for` loop of `Scan` together with the final `return devices, err`.

The socket is given by what its reads deliver: `reads` are the successful
reads in arrival order, and `failure` is the error of the first read that
fails (once the read deadline is armed, some read does fail).

`err` is the variable `err` of the function body. Inside the loop,
`rlen, addr, err := sock.ReadFromUDP(buff)` declares a new `err` in the
scope of the loop body (`errRead` here), so the `break` leaves the outer
`err` as it was. -/
def scanLoop (unmarshal : List Byte → Except Error Response) :
    List Read → Error → List Device → Option Error → Outcome
  | [], failure, devices, err =>
    -- the read fails: the `err` of the loop body is `failure`
    let _errRead : Option Error := some failure
    -- `if err != nil { break }`, then `return devices, err` with the `err`
    -- of the function body
    .returned (some devices) err
  | rd :: rest, failure, devices, err =>
    let data := decrypt (rd.buff.take rd.rlen)
    match unmarshal data with
    | .error errJson => .returned none (some errJson)
    | .ok r =>
      match r.System.Info with
      | none => .panicked
      | some info =>
        let devices := devices ++ [{ IPAddress := rd.addr.IP, Info := info }]
        scanLoop unmarshal rest failure devices err

/-- The function `Scan(timeout time.Duration) ([]Device, error)`. The duration
only fixes when the reads start to fail, which `reads` and `failure` say.

When `net.ListenUDP` fails, `sock` is nil and `defer sock.Close()` stands
before the error check: evaluating the receiver `&sock.conn` of the promoted
method dereferences the nil pointer. -/
def Scan (net : Net) (reads : List Read) (failure : Error) : Outcome :=
  let devices : List Device := []
  match net.resolveUDPAddr "udp" "255.255.255.255:9999" with
  | .error err => .returned none (some err)
  | .ok broadcastAddr =>
    match net.resolveUDPAddr "udp" "0.0.0.0:8755" with
    | .error err => .returned none (some err)
    | .ok fromAddr =>
      match net.listenUDP "udp" fromAddr with
      | .error _ => .panicked
      | .ok () =>
        let cmd := encrypt GET_INFO
        match net.writeToUDP cmd broadcastAddr with
        | some err => .returned none (some err)
        | none =>
          match net.setReadDeadline with
          | some err => .returned none (some err)
          | none => scanLoop net.unmarshal reads failure devices none

/-- Every step of `Scan` before its loop succeeds: both addresses resolve, the
socket is bound, the broadcast of `encrypt(GET_INFO)` is sent and the read
deadline is set. -/
def SetupOk (net : Net) : Prop :=
  ∃ broadcastAddr fromAddr,
    net.resolveUDPAddr "udp" "255.255.255.255:9999" = .ok broadcastAddr ∧
    net.resolveUDPAddr "udp" "0.0.0.0:8755" = .ok fromAddr ∧
    net.listenUDP "udp" fromAddr = .ok () ∧
    net.writeToUDP (encrypt GET_INFO) broadcastAddr = none ∧
    net.setReadDeadline = none

/-- The device record `Scan` appends for a read whose payload gave `info`. -/
def deviceOf (rd : Read) (info : Info) : Device :=
  { IPAddress := rd.addr.IP, Info := info }

/-- The read `rd` is a well-formed reply giving `info`: `json.Unmarshal` accepts
`decrypt(buff[:rlen])` and leaves `r.System.Info` pointing at `info`. -/
def ParsesTo (net : Net) (rd : Read) (info : Info) : Prop :=
  ∃ r, net.unmarshal (decrypt (rd.buff.take rd.rlen)) = .ok r ∧ r.System.Info = some info

/-! ## Concrete inputs -/

/-- The zero value `Info{}`. -/
def Info.zero : Info :=
  { SoftwareVersion := "", HardwareVersion := "", HardwareID := "", DeviceType := "",
    Model := "", MacAddr := "", DeviceID := "", FirmwareID := "", OEMID := "",
    Alias := "", IconHash := "", State := 0, ActiveMode := "", Feature := "",
    Updating := 0, RSSI := 0, LedOff := 0, Latitude := 0, Longitude := 0 }

/-- The reply text of a plug that is on and named lamp. -/
def lampJson : List Byte :=
  goString "\x7b\"system\":\x7b\"get_sysinfo\":\x7b\"alias\":\"lamp\",\"relay_state\":1\x7d\x7d\x7d"

/-- The `Info` that `lampJson` decodes to. -/
def lampInfo : Info := { Info.zero with Alias := "lamp", State := 1 }

/-- The reply text consisting of the empty JSON object. -/
def emptyObjectJson : List Byte := goString "\x7b\x7d"

/-- The results of `json.Unmarshal` on the two texts `lampJson` and
`emptyObjectJson`: the first fills `get_sysinfo`; the second is valid JSON
without any key, so `r` stays `Response{}`. Any other text is refused here. -/
def unmarshalSample (data : List Byte) : Except Error Response :=
  if data = lampJson then
    .ok { Response.zero with System := { Response.zero.System with Info := some lampInfo } }
  else if data = emptyObjectJson then
    .ok Response.zero
  else
    .error ⟨"invalid character", false⟩

/-- A network on which every step before the loop succeeds. -/
def sampleNet : Net :=
  { resolveUDPAddr := fun _ address =>
      if address = "255.255.255.255:9999" then .ok ⟨"255.255.255.255", 9999⟩
      else if address = "0.0.0.0:8755" then .ok ⟨"0.0.0.0", 8755⟩
      else .error ⟨"missing port in address", false⟩
    listenUDP := fun _ _ => .ok ()
    writeToUDP := fun _ _ => none
    setReadDeadline := none
    unmarshal := unmarshalSample }

/-- A read of the datagram `encrypt(text)` sent from `ip`, into a buffer of
2048 bytes. -/
def readOf (text : List Byte) (ip : String) : Read :=
  { buff := encrypt text ++ makeBytes (2048 - text.length)
    rlen := text.length
    addr := ⟨ip, 9999⟩ }

/-- The error of a read that ran into the read deadline. -/
def timeoutError : Error := ⟨"i/o timeout", true⟩

/-- The error of a read that failed for another reason than the deadline. -/
def unreachableError : Error := ⟨"network is unreachable", false⟩


/-! ## Replies that are JSON but that `json.Unmarshal` refuses -/

/-- A JSON value of the fragment the replies below use: integers, strings
without escapes, and objects; texts are written without white space. -/
inductive Json where
  | num (n : Int)
  | str (s : String)
  | obj (members : List (String × Json))

mutual
/-- The text of a JSON value. -/
def Json.render : Json → String
  | .num n => toString n
  | .str s => "\"" ++ s ++ "\""
  | .obj members => "\x7b" ++ Json.renderMembers members ++ "\x7d"
/-- The text of the members of a JSON object, separated by commas. -/
def Json.renderMembers : List (String × Json) → String
  | [] => ""
  | [(k, v)] => "\"" ++ k ++ "\":" ++ v.render
  | (k, v) :: m :: rest =>
    "\"" ++ k ++ "\":" ++ v.render ++ "," ++ Json.renderMembers (m :: rest)
end

/-- The member `key` of a JSON object. -/
def Json.member : Json → String → Option Json
  | .obj members, key => (members.find? (fun kv => kv.1 = key)).map (fun kv => kv.2)
  | _, _ => none

/-- The payload `data` is JSON containing a `system.get_sysinfo` object: it is
the text of a JSON value whose member `system` has a member `get_sysinfo`
that is an object. -/
def HasSysinfoObject (data : List Byte) : Prop :=
  ∃ j sys fields, goString (Json.render j) = data ∧
    Json.member j "system" = some sys ∧
    Json.member sys "get_sysinfo" = some (Json.obj fields)

/-- The JSON value of the reply `lampJson`. -/
def lampValue : Json :=
  .obj [("system", .obj [("get_sysinfo",
    .obj [("alias", .str "lamp"), ("relay_state", .num 1)])])]

/-- The JSON value of a reply whose `relay_state` is a string, where the
field `State` of `Info` is an `int`. -/
def illTypedValue : Json :=
  .obj [("system", .obj [("get_sysinfo", .obj [("relay_state", .str "on")])])]

/-- The reply text of `illTypedValue`. -/
def illTypedJson : List Byte :=
  goString "\x7b\"system\":\x7b\"get_sysinfo\":\x7b\"relay_state\":\"on\"\x7d\x7d\x7d"

/-- The `*json.UnmarshalTypeError` that `json.Unmarshal` returns for
`illTypedJson`. -/
def unmarshalTypeError : Error :=
  ⟨"json: cannot unmarshal string into Go struct field of type int", false⟩

/-- The results of `json.Unmarshal` on `illTypedJson`, `lampJson` and
`emptyObjectJson`: the first is valid JSON with a `get_sysinfo` object, but
its `relay_state` is a string and the error returned is not nil; the other
two are as in `unmarshalSample`. -/
def unmarshalTyped (data : List Byte) : Except Error Response :=
  if data = illTypedJson then .error unmarshalTypeError else unmarshalSample data

/-- The network `sampleNet` with `unmarshalTyped` for `json.Unmarshal`. -/
def typedNet : Net := { sampleNet with unmarshal := unmarshalTyped }

/-! ## Exclusive or on bytes -/

theorem byte_xor_val (a b : Byte) : (a ^^^ b).val = a.val ^^^ b.val := by
  have h : a.val ^^^ b.val < 2 ^ 8 := Nat.xor_lt_two_pow a.isLt b.isLt
  show (a.val ^^^ b.val) % 256 = a.val ^^^ b.val
  exact Nat.mod_eq_of_lt h

theorem byte_xor_cancel (a b : Byte) : a ^^^ (a ^^^ b) = b := by
  apply Fin.ext
  rw [byte_xor_val, byte_xor_val, ← Nat.xor_assoc, Nat.xor_self, Nat.zero_xor]

theorem seed_xor_ne (c : Byte) : (0xAB : Byte) ^^^ c ≠ c := by
  intro h
  have hv : 171 ^^^ c.val = c.val := by
    have := congrArg Fin.val h
    rwa [byte_xor_val] at this
  have h0 : (171 ^^^ c.val) ^^^ c.val = 0 := by rw [hv, Nat.xor_self]
  rw [Nat.xor_assoc, Nat.xor_self, Nat.xor_zero] at h0
  exact absurd h0 (by decide)

/-! ## The loops compute the specification's folds -/

theorem decryptLoop_eq (request : List Byte) :
    ∀ (i : Nat) (key : Byte) (done todo : List Byte),
      done.length = i → todo.length = request.length →
      decryptLoop request i key (done ++ todo) = done ++ decodeSpec key request := by
  induction request with
  | nil =>
    intro i key done todo _ ht
    have : todo = [] := List.length_eq_zero.mp ht
    simp [decryptLoop, decodeSpec, this]
  | cons c rest ih =>
    intro i key done todo hd ht
    cases todo with
    | nil => simp at ht
    | cons t todo =>
      have hset : (done ++ t :: todo).set i (key ^^^ c) = (done ++ [key ^^^ c]) ++ todo := by
        subst hd
        simp
      simp only [decryptLoop, decodeSpec, hset]
      rw [ih (i + 1) c (done ++ [key ^^^ c]) todo (by simp [hd]) (by simpa using ht)]
      simp

theorem encryptLoop_eq (request : List Byte) :
    ∀ (i : Nat) (key : Byte) (done todo : List Byte),
      done.length = i + 4 → todo.length = request.length →
      encryptLoop request i key (done ++ todo) = done ++ encodeSpec key request := by
  induction request with
  | nil =>
    intro i key done todo _ ht
    have : todo = [] := List.length_eq_zero.mp ht
    simp [encryptLoop, encodeSpec, this]
  | cons c rest ih =>
    intro i key done todo hd ht
    cases todo with
    | nil => simp at ht
    | cons t todo =>
      have hset : (done ++ t :: todo).set (i + 4) (key ^^^ c) = (done ++ [key ^^^ c]) ++ todo := by
        rw [← hd]
        simp
      simp only [encryptLoop, encodeSpec, hset]
      rw [ih (i + 1) (key ^^^ c) (done ++ [key ^^^ c]) todo (by simp [hd]) (by simpa using ht)]
      simp

theorem decrypt_eq_decodeSpec (request : List Byte) :
    decrypt request = decodeSpec 0xAB request := by
  have h := decryptLoop_eq request 0 0xAB [] (makeBytes request.length) rfl
    (by simp [makeBytes])
  simpa [decrypt] using h

theorem encryptBuffer_eq (s : List Byte) :
    encryptBuffer s = [0, 0, 0, 0] ++ encodeSpec 0xAB s := by
  have hbuf : ((((makeBytes (4 + s.length)).set 0 0x0).set 1 0x0).set 2 0x0).set 3 0x0
      = [0, 0, 0, 0] ++ makeBytes s.length := by
    simp [makeBytes, List.replicate_add, List.replicate_succ]
  have h := encryptLoop_eq s 0 0xAB [0, 0, 0, 0] (makeBytes s.length) rfl
    (by simp [makeBytes])
  simp only [encryptBuffer, hbuf]
  exact h

theorem encrypt_eq_encodeSpec (s : List Byte) : encrypt s = encodeSpec 0xAB s := by
  simp [encrypt, encryptBuffer_eq]

/-! ## Facts about the specification's folds -/

theorem encodeSpec_length (key : Byte) (x : List Byte) :
    (encodeSpec key x).length = x.length := by
  induction x generalizing key with
  | nil => rfl
  | cons c rest ih => simp [encodeSpec, ih]

theorem decodeSpec_length (key : Byte) (x : List Byte) :
    (decodeSpec key x).length = x.length := by
  induction x generalizing key with
  | nil => rfl
  | cons c rest ih => simp [decodeSpec, ih]

theorem decodeSpec_encodeSpec (key : Byte) (x : List Byte) :
    decodeSpec key (encodeSpec key x) = x := by
  induction x generalizing key with
  | nil => rfl
  | cons c rest ih => simp [encodeSpec, decodeSpec, byte_xor_cancel, ih]

theorem encodeSpec_decodeSpec (key : Byte) (y : List Byte) :
    encodeSpec key (decodeSpec key y) = y := by
  induction y generalizing key with
  | nil => rfl
  | cons c rest ih => simp [encodeSpec, decodeSpec, byte_xor_cancel, ih]

theorem encodeSpec_head (key c : Byte) (rest : List Byte) :
    (encodeSpec key (c :: rest))[0]? = some (key ^^^ c) := by
  simp [encodeSpec]

theorem decodeSpec_head (key c : Byte) (rest : List Byte) :
    (decodeSpec key (c :: rest))[0]? = some (key ^^^ c) := by
  simp [decodeSpec]

theorem encodeSpec_step (x : List Byte) :
    ∀ (key : Byte) (i : Nat) (h : i + 1 < x.length),
      ∃ p, (encodeSpec key x)[i]? = some p ∧
        (encodeSpec key x)[i + 1]? = some (p ^^^ x[i + 1]) := by
  induction x with
  | nil => intro key i h; simp at h
  | cons c rest ih =>
    intro key i h
    cases i with
    | zero =>
      cases rest with
      | nil => simp at h
      | cons d rest => exact ⟨key ^^^ c, by simp [encodeSpec], by simp [encodeSpec]⟩
    | succ j =>
      obtain ⟨p, hp, hq⟩ := ih (key ^^^ c) j (by simpa using h)
      exact ⟨p, by simpa [encodeSpec] using hp, by simpa [encodeSpec] using hq⟩

theorem decodeSpec_step (x : List Byte) :
    ∀ (key : Byte) (i : Nat) (h : i + 1 < x.length),
      ∃ p, x[i]? = some p ∧ (decodeSpec key x)[i + 1]? = some (p ^^^ x[i + 1]) := by
  induction x with
  | nil => intro key i h; simp at h
  | cons c rest ih =>
    intro key i h
    cases i with
    | zero =>
      cases rest with
      | nil => simp at h
      | cons d rest => exact ⟨c, by simp, by simp [decodeSpec]⟩
    | succ j =>
      obtain ⟨p, hp, hq⟩ := ih c j (by simpa using h)
      exact ⟨p, by simpa using hp, by simpa [decodeSpec] using hq⟩

/-! ## The loop of `Scan` -/

theorem Scan_of_setupOk (net : Net) (reads : List Read) (failure : Error)
    (hsetup : SetupOk net) :
    Scan net reads failure = scanLoop net.unmarshal reads failure [] none := by
  obtain ⟨b, f, hb, hf, hl, hw, hd⟩ := hsetup
  simp [Scan, hb, hf, hl, hw, hd]

theorem scanLoop_append (net : Net) (reads : List Read) (infos : List Info)
    (hreplies : List.Forall₂ (ParsesTo net) reads infos) :
    ∀ (tail : List Read) (failure : Error) (devices : List Device) (err : Option Error),
      scanLoop net.unmarshal (reads ++ tail) failure devices err
        = scanLoop net.unmarshal tail failure
            (devices ++ List.zipWith deviceOf reads infos) err := by
  induction hreplies with
  | nil => intro tail failure devices err; simp
  | @cons rd info reads infos hrd _ ih =>
    intro tail failure devices err
    obtain ⟨r, hr, hinfo⟩ := hrd
    have hstep : scanLoop net.unmarshal (rd :: (reads ++ tail)) failure devices err
        = scanLoop net.unmarshal (reads ++ tail) failure (devices ++ [deviceOf rd info]) err := by
      simp [scanLoop, hr, hinfo, deviceOf]
    rw [List.cons_append, hstep, ih]
    simp

theorem scanLoop_nil (net : Net) (failure : Error) (devices : List Device)
    (err : Option Error) :
    scanLoop net.unmarshal [] failure devices err = .returned (some devices) err := by
  simp [scanLoop]

theorem scanLoop_wellformed (net : Net) (reads : List Read) (infos : List Info)
    (failure : Error) (hreplies : List.Forall₂ (ParsesTo net) reads infos) :
    scanLoop net.unmarshal reads failure [] none
      = .returned (some (List.zipWith deviceOf reads infos)) none := by
  have h := scanLoop_append net reads infos hreplies [] failure [] none
  simpa [scanLoop_nil] using h

theorem sampleNet_setupOk : SetupOk sampleNet :=
  ⟨⟨"255.255.255.255", 9999⟩, ⟨"0.0.0.0", 8755⟩, rfl, rfl, rfl, rfl, rfl⟩

theorem readOf_payload (text : List Byte) (ip : String) :
    decrypt ((readOf text ip).buff.take (readOf text ip).rlen) = text := by
  have hlen : (encrypt text).length = text.length := by
    rw [encrypt_eq_encodeSpec, encodeSpec_length]
  have htake : (encrypt text ++ makeBytes (2048 - text.length)).take text.length
      = encrypt text := by
    rw [← hlen, List.take_left]
  show decrypt ((encrypt text ++ makeBytes (2048 - text.length)).take text.length) = text
  rw [htake, decrypt_eq_decodeSpec, encrypt_eq_encodeSpec, decodeSpec_encodeSpec]

theorem lamp_parsesTo (ip : String) : ParsesTo sampleNet (readOf lampJson ip) lampInfo := by
  refine ⟨{ Response.zero with System := { Response.zero.System with Info := some lampInfo } },
    ?_, rfl⟩
  rw [readOf_payload]
  simp [sampleNet, unmarshalSample]

theorem emptyObject_unmarshal (ip : String) :
    sampleNet.unmarshal
      (decrypt ((readOf emptyObjectJson ip).buff.take (readOf emptyObjectJson ip).rlen))
      = .ok Response.zero := by
  rw [readOf_payload]
  have hne : emptyObjectJson ≠ lampJson := by decide
  simp [sampleNet, unmarshalSample, hne]

theorem typedNet_setupOk : SetupOk typedNet :=
  ⟨⟨"255.255.255.255", 9999⟩, ⟨"0.0.0.0", 8755⟩, rfl, rfl, rfl, rfl, rfl⟩

theorem lamp_parsesTo_typed (ip : String) :
    ParsesTo typedNet (readOf lampJson ip) lampInfo := by
  refine ⟨{ Response.zero with System := { Response.zero.System with Info := some lampInfo } },
    ?_, rfl⟩
  rw [readOf_payload]
  have hne : lampJson ≠ illTypedJson := by decide
  simp [typedNet, unmarshalTyped, unmarshalSample, hne]

theorem illTyped_unmarshal (ip : String) :
    typedNet.unmarshal
      (decrypt ((readOf illTypedJson ip).buff.take (readOf illTypedJson ip).rlen))
      = .error unmarshalTypeError := by
  rw [readOf_payload]
  simp [typedNet, unmarshalTyped]

theorem lamp_hasSysinfoObject : HasSysinfoObject lampJson :=
  ⟨lampValue, .obj [("get_sysinfo", .obj [("alias", .str "lamp"), ("relay_state", .num 1)])],
    [("alias", .str "lamp"), ("relay_state", .num 1)], by decide, rfl, rfl⟩

theorem illTyped_hasSysinfoObject : HasSysinfoObject illTypedJson :=
  ⟨illTypedValue, .obj [("get_sysinfo", .obj [("relay_state", .str "on")])],
    [("relay_state", .str "on")], by decide, rfl, rfl⟩

/-! ## The claims about the codec -/

/-- C1. Cipher round trip: for every byte sequence `x` (the empty one and
sequences that are not valid UTF-8 included), `decrypt(encrypt(x))` is `x`;
in particular for the constant `GET_INFO`. -/
theorem decrypt_encrypt_roundtrip :
    (∀ x : List Byte, decrypt (encrypt x) = x) ∧
      decrypt (encrypt []) = [] ∧ decrypt (encrypt GET_INFO) = GET_INFO := by
  have h : ∀ x : List Byte, decrypt (encrypt x) = x := by
    intro x
    rw [decrypt_eq_decodeSpec, encrypt_eq_encodeSpec, decodeSpec_encodeSpec]
  exact ⟨h, h [], h GET_INFO⟩

/-- C2. The function `encrypt` is the autokey transform seeded with `0xAB`:
it equals the fold the specification describes, its byte 0 is
`0xAB XOR x[0]`, and for every index `i >= 1` below `len(x)` its byte `i` is
its own byte `i-1` XOR `x[i]`. -/
theorem encrypt_autokey (x : List Byte) :
    encrypt x = encodeSpec 0xAB x ∧
      ∀ (i : Nat) (h : i < x.length),
        (i = 0 → (encrypt x)[i]? = some (0xAB ^^^ x[i])) ∧
        (1 ≤ i → ∃ p, (encrypt x)[i - 1]? = some p ∧
          (encrypt x)[i]? = some (p ^^^ x[i])) := by
  refine ⟨encrypt_eq_encodeSpec x, ?_⟩
  intro i h
  rw [encrypt_eq_encodeSpec]
  constructor
  · intro hi
    subst hi
    cases x with
    | nil => simp at h
    | cons c rest => simpa using encodeSpec_head 0xAB c rest
  · intro hi
    obtain ⟨j, rfl⟩ : ∃ j, i = j + 1 := ⟨i - 1, by omega⟩
    simpa using encodeSpec_step x 0xAB j h

/-- Witness of C2 on the command `GET_INFO`: the first output byte is
`0xAB XOR 0x7B = 0xD0`, and the second one is `0xD0 XOR 0x22`. -/
theorem encrypt_autokey_witness :
    1 < GET_INFO.length ∧ (encrypt GET_INFO)[0]? = some 0xD0 ∧
      ∃ p, (encrypt GET_INFO)[0]? = some p ∧ (encrypt GET_INFO)[1]? = some (p ^^^ 0x22) :=
  ⟨by decide,
    ((encrypt_autokey GET_INFO).2 0 (by decide)).1 rfl,
    ((encrypt_autokey GET_INFO).2 1 (by decide)).2 (Nat.le_refl 1)⟩

/-- C3. The function `decrypt` is the inverse autokey transform seeded with
`0xAB`: it equals the fold the specification describes, its byte 0 is
`0xAB XOR request[0]`, and for every index `i >= 1` below `len(request)` its
byte `i` is `request[i-1] XOR request[i]`, so an output byte depends on at
most two input bytes. -/
theorem decrypt_autokey (request : List Byte) :
    decrypt request = decodeSpec 0xAB request ∧
      ∀ (i : Nat) (h : i < request.length),
        (i = 0 → (decrypt request)[i]? = some (0xAB ^^^ request[i])) ∧
        (1 ≤ i → ∃ p, request[i - 1]? = some p ∧
          (decrypt request)[i]? = some (p ^^^ request[i])) := by
  refine ⟨decrypt_eq_decodeSpec request, ?_⟩
  intro i h
  rw [decrypt_eq_decodeSpec]
  constructor
  · intro hi
    subst hi
    cases request with
    | nil => simp at h
    | cons b rest => simpa using decodeSpec_head 0xAB b rest
  · intro hi
    obtain ⟨j, rfl⟩ : ∃ j, i = j + 1 := ⟨i - 1, by omega⟩
    simpa using decodeSpec_step request 0xAB j h

/-- Witness of C3 on the ciphertext `[0xD0, 0xF2]`: byte 0 of the output is
`0xAB XOR 0xD0` and byte 1 is `0xD0 XOR 0xF2`. -/
theorem decrypt_autokey_witness :
    (decrypt [0xD0, 0xF2])[0]? = some (0xAB ^^^ 0xD0) ∧
      ∃ p, ([0xD0, 0xF2] : List Byte)[0]? = some p ∧
        (decrypt [0xD0, 0xF2])[1]? = some (p ^^^ 0xF2) :=
  ⟨((decrypt_autokey [0xD0, 0xF2]).2 0 (by decide)).1 rfl,
    ((decrypt_autokey [0xD0, 0xF2]).2 1 (by decide)).2 (Nat.le_refl 1)⟩

/-- C4. The codec adds no framing: `encrypt(x)` and `decrypt(x)` have the
length of `x`; the working buffer of `encrypt` is four zero bytes followed by
exactly the returned value, so those four bytes are not part of it; and the
empty input gives the empty output for both operations. -/
theorem codec_no_framing (x : List Byte) :
    (encrypt x).length = x.length ∧ (decrypt x).length = x.length ∧
      encryptBuffer x = [0, 0, 0, 0] ++ encrypt x ∧
      encrypt [] = [] ∧ decrypt [] = [] := by
  refine ⟨?_, ?_, ?_, ?_, ?_⟩
  · rw [encrypt_eq_encodeSpec, encodeSpec_length]
  · rw [decrypt_eq_decodeSpec, decodeSpec_length]
  · rw [encrypt_eq_encodeSpec, encryptBuffer_eq]
  · rw [encrypt_eq_encodeSpec]; rfl
  · rw [decrypt_eq_decodeSpec]; rfl

/-- C5. Cipher non-identity: `encrypt(x)` differs from `x` for every non-empty
input `x` (its first byte is `0xAB XOR x[0]`, never `x[0]`); no non-empty
fixed point of `encrypt` exists, so no input has to be set aside. -/
theorem encrypt_ne_self (x : List Byte) (hne : x ≠ []) : encrypt x ≠ x := by
  cases x with
  | nil => exact absurd rfl hne
  | cons c rest =>
    rw [encrypt_eq_encodeSpec]
    intro h
    have hhead : (0xAB : Byte) ^^^ c = c := by
      simp only [encodeSpec] at h
      exact (List.cons.inj h).1
    exact seed_xor_ne c hhead

/-- Witness of C5 on the command `GET_INFO`. -/
theorem encrypt_ne_self_witness : GET_INFO ≠ [] ∧ encrypt GET_INFO ≠ GET_INFO :=
  ⟨by decide, encrypt_ne_self GET_INFO (by decide)⟩

/-- C9. The codec is a bijection on byte sequences: `encrypt(decrypt(y))` is
`y` for every byte sequence `y`, and `y` is the ciphertext of exactly one
plaintext. -/
theorem encrypt_decrypt_bijection (y : List Byte) :
    encrypt (decrypt y) = y ∧ ∃! x, encrypt x = y := by
  have hy : encrypt (decrypt y) = y := by
    rw [encrypt_eq_encodeSpec, decrypt_eq_decodeSpec, encodeSpec_decodeSpec]
  refine ⟨hy, decrypt y, hy, ?_⟩
  intro x hx
  rw [← hx, decrypt_eq_decodeSpec, encrypt_eq_encodeSpec, decodeSpec_encodeSpec]

/-! ## The claims about `Scan` -/

/-- C6. Deadline expiry is normal termination: when every step before the
loop succeeds and the first read fails with a timeout, `Scan` returns an
empty, non-nil device list and a nil error; and when the loop ends on a
timeout after any number of well-formed replies, it returns a device list and
a nil error. -/
theorem Scan_timeout_nil_error (net : Net) (reads : List Read) (infos : List Info)
    (failure : Error) (hsetup : SetupOk net) (_htimeout : failure.timeout = true)
    (hreplies : List.Forall₂ (ParsesTo net) reads infos) :
    Scan net [] failure = .returned (some []) none ∧
      ∃ devices, Scan net reads failure = .returned (some devices) none := by
  refine ⟨?_, List.zipWith deviceOf reads infos, ?_⟩
  · rw [Scan_of_setupOk net [] failure hsetup, scanLoop_nil]
  · rw [Scan_of_setupOk net reads failure hsetup,
      scanLoop_wellformed net reads infos failure hreplies]

/-- Witness of C6: a timeout at once, and a timeout after one reply. -/
theorem Scan_timeout_nil_error_witness :
    SetupOk sampleNet ∧ timeoutError.timeout = true ∧
      Scan sampleNet [] timeoutError = .returned (some []) none ∧
      ∃ devices, Scan sampleNet [readOf lampJson "192.168.0.7"] timeoutError
        = .returned (some devices) none :=
  ⟨sampleNet_setupOk, rfl,
    Scan_timeout_nil_error sampleNet [readOf lampJson "192.168.0.7"] [lampInfo] timeoutError
      sampleNet_setupOk rfl (List.Forall₂.cons (lamp_parsesTo "192.168.0.7") List.Forall₂.nil)⟩

/-- C7, evaluated on the code: a read that fails with an error that is not a
timeout ends the loop like a timeout does, and `Scan` returns the devices
collected so far with a nil error; the read error is not returned. -/
theorem Scan_read_failure_returns_nil_error :
    unreachableError.timeout = false ∧
      Scan sampleNet [] unreachableError = .returned (some []) none ∧
      Scan sampleNet [readOf lampJson "192.168.0.7"] unreachableError
        = .returned (some [⟨"192.168.0.7", lampInfo⟩]) none := by
  refine ⟨rfl, ?_, ?_⟩
  · rw [Scan_of_setupOk sampleNet [] unreachableError sampleNet_setupOk, scanLoop_nil]
  · rw [Scan_of_setupOk sampleNet _ unreachableError sampleNet_setupOk,
      scanLoop_wellformed sampleNet [readOf lampJson "192.168.0.7"] [lampInfo]
        unreachableError (List.Forall₂.cons (lamp_parsesTo "192.168.0.7") List.Forall₂.nil)]
    rfl

/-- C8, as amended. Discovery aggregation: when every step before the loop
succeeds and, for each of the `n` reads before the failing one,
`json.Unmarshal` accepts `decrypt(buff[:rlen])` with a nil error and leaves
`r.System.Info` non-nil, `Scan` returns exactly `n` devices in arrival
order, the k-th one carrying the k-th sender IP and the k-th parsed `Info`;
replies of the same sender are all kept. -/
theorem Scan_aggregates (net : Net) (reads : List Read) (infos : List Info)
    (failure : Error) (hsetup : SetupOk net)
    (hreplies : List.Forall₂ (ParsesTo net) reads infos) :
    Scan net reads failure
        = .returned (some (List.zipWith deviceOf reads infos)) none ∧
      (List.zipWith deviceOf reads infos).length = reads.length := by
  constructor
  · rw [Scan_of_setupOk net reads failure hsetup,
      scanLoop_wellformed net reads infos failure hreplies]
  · simp [hreplies.length_eq]

/-- Witness of C8: the same sender replies twice and both replies are kept. -/
theorem Scan_aggregates_witness :
    SetupOk sampleNet ∧
      Scan sampleNet [readOf lampJson "192.168.0.7", readOf lampJson "192.168.0.7"]
          timeoutError
        = .returned (some [⟨"192.168.0.7", lampInfo⟩, ⟨"192.168.0.7", lampInfo⟩]) none :=
  ⟨sampleNet_setupOk,
    (Scan_aggregates sampleNet [readOf lampJson "192.168.0.7", readOf lampJson "192.168.0.7"]
      [lampInfo, lampInfo] timeoutError sampleNet_setupOk
      (List.Forall₂.cons (lamp_parsesTo "192.168.0.7")
        (List.Forall₂.cons (lamp_parsesTo "192.168.0.7") List.Forall₂.nil))).1⟩

/-- C8, as stated, fails: a reply can be JSON containing a
`system.get_sysinfo` object and still be refused by `json.Unmarshal` (here
`relay_state` is a string). For such a reply `Scan` takes
`return nil, err`: it returns no device list, alone or after a good reply,
whose device it drops. -/
theorem Scan_aggregates_counterexample :
    SetupOk typedNet ∧
      HasSysinfoObject (decrypt ((readOf lampJson "192.168.0.7").buff.take
        (readOf lampJson "192.168.0.7").rlen)) ∧
      HasSysinfoObject (decrypt ((readOf illTypedJson "192.168.0.8").buff.take
        (readOf illTypedJson "192.168.0.8").rlen)) ∧
      Scan typedNet [readOf illTypedJson "192.168.0.8"] timeoutError
        = .returned none (some unmarshalTypeError) ∧
      Scan typedNet [readOf lampJson "192.168.0.7", readOf illTypedJson "192.168.0.8"]
          timeoutError
        = .returned none (some unmarshalTypeError) := by
  refine ⟨typedNet_setupOk, ?_, ?_, ?_, ?_⟩
  · rw [readOf_payload]; exact lamp_hasSysinfoObject
  · rw [readOf_payload]; exact illTyped_hasSysinfoObject
  · rw [Scan_of_setupOk typedNet _ timeoutError typedNet_setupOk]
    simp [scanLoop, illTyped_unmarshal]
  · rw [Scan_of_setupOk typedNet _ timeoutError typedNet_setupOk]
    have h := scanLoop_append typedNet [readOf lampJson "192.168.0.7"] [lampInfo]
      (List.Forall₂.cons (lamp_parsesTo_typed "192.168.0.7") List.Forall₂.nil)
      [readOf illTypedJson "192.168.0.8"] timeoutError [] none
    rw [List.singleton_append] at h
    rw [h]
    simp [scanLoop, illTyped_unmarshal]

/-- C10, evaluated on the code: when every step before the loop succeeds and,
after any number of well-formed replies, a datagram arrives whose decrypted
payload `json.Unmarshal` accepts while leaving `r.System.Info` nil, `Scan`
dereferences the nil pointer and panics instead of returning. -/
theorem Scan_nil_info_panics (net : Net) (reads : List Read) (infos : List Info)
    (rd : Read) (rest : List Read) (failure : Error) (r : Response)
    (hsetup : SetupOk net) (hreplies : List.Forall₂ (ParsesTo net) reads infos)
    (hparse : net.unmarshal (decrypt (rd.buff.take rd.rlen)) = .ok r)
    (hnil : r.System.Info = none) :
    Scan net (reads ++ rd :: rest) failure = .panicked := by
  rw [Scan_of_setupOk net _ failure hsetup, scanLoop_append net reads infos hreplies]
  simp [scanLoop, hparse, hnil]

/-- Witness of C10: the reply is the empty JSON object, sent as the two bytes
`[0xD0, 0xAD]`. -/
theorem Scan_nil_info_panics_witness :
    encrypt emptyObjectJson = [0xD0, 0xAD] ∧
      Scan sampleNet [readOf emptyObjectJson "192.168.0.7"] timeoutError = .panicked :=
  ⟨by decide,
    Scan_nil_info_panics sampleNet [] [] (readOf emptyObjectJson "192.168.0.7") []
      timeoutError Response.zero sampleNet_setupOk List.Forall₂.nil
      (emptyObject_unmarshal "192.168.0.7") rfl⟩

end Tplink
